import Mathlib

/-
Verification of the face-pattern layout engine of the stl-gen repository.

The layout logic lives in `create_lattice_for_face` in `rag_basket.py`
(staggered variant, lines 106-141) and in `rag-basket.py` (plain variant,
lines 83-114).  All quantities in the scripts are Python floats combined by
exact arithmetic (+, -, *, /) and `int()` truncation; we model them as
rationals, with `pyInt` capturing Python's truncation toward zero.
-/

namespace RagBasket

/-- Footprint and pitch of one repeating diamond cutter, per the module-level
parameters `diamond_width`, `diamond_height`, `diamond_spacing_x`,
`diamond_spacing_y`. -/
structure UnitCell where
  width : ℚ
  height : ℚ
  spacing_x : ℚ
  spacing_y : ℚ

/-- One unit-cell center in the face's local 2-D coordinate system
(the pair `(lx, lz)` of the scripts). -/
structure Placement where
  local_x : ℚ
  local_y : ℚ

/-- The rectangular exclusion zone used for the face opposite the slot:
`slot_horiz_center`, `slot_horiz_half`, `slot_min_z`, `slot_max_z` in
`rag_basket.py`. -/
structure ReservedRegion where
  center : ℚ
  half_extent_along_axis : ℚ
  min_along_perp : ℚ
  max_along_perp : ℚ

/-- Python `int(q)`: truncation toward zero. -/
def pyInt (q : ℚ) : ℤ :=
  if 0 ≤ q then ⌊q⌋ else ⌈q⌉

/-- Grid count along one axis, per `rag_basket.py` lines 120-121:
`nx = int(max(0, usable_w) / (diamond_width + diamond_spacing_x))`. -/
def compute_grid_count (usable cell spacing : ℚ) : ℤ :=
  pyInt (max 0 usable / (cell + spacing))

/-- Total occupied grid span horizontally, per line 127:
`grid_total_w = nx * diamond_width + (nx - 1) * diamond_spacing_x`. -/
def grid_total_w (nx : ℕ) (c : UnitCell) : ℚ :=
  (nx : ℚ) * c.width + ((nx : ℚ) - 1) * c.spacing_x

/-- Total occupied grid span vertically, per line 128. -/
def grid_total_h (ny : ℕ) (c : UnitCell) : ℚ :=
  (ny : ℚ) * c.height + ((ny : ℚ) - 1) * c.spacing_y

/-- Per-row stagger offset, per line 132:
`row_offset = (diamond_width + diamond_spacing_x) / 2.0 if (j % 2) == 1 else 0.0`,
guarded by the spec's `stagger` flag (`rag_basket.py` always staggers,
`rag-basket.py` never does). -/
def row_offset (c : UnitCell) (stagger : Bool) (j : ℕ) : ℚ :=
  if stagger && (j % 2 == 1) then (c.width + c.spacing_x) / 2 else 0

/-- Horizontal placement coordinate, per lines 134-139:
`lx = -grid_total_w / 2 + diamond_width / 2 + i * (diamond_width + diamond_spacing_x) + row_offset`. -/
def place_x (nx : ℕ) (c : UnitCell) (stagger : Bool) (j i : ℕ) : ℚ :=
  -(grid_total_w nx c) / 2 + c.width / 2 + (i : ℚ) * (c.width + c.spacing_x)
    + row_offset c stagger j

/-- Vertical placement coordinate, per line 140:
`lz = -grid_total_h / 2 + diamond_height / 2 + j * (diamond_height + diamond_spacing_y)`. -/
def place_y (ny : ℕ) (c : UnitCell) (j : ℕ) : ℚ :=
  -(grid_total_h ny c) / 2 + c.height / 2 + (j : ℚ) * (c.height + c.spacing_y)

/-- The nested emission loops of lines 131-141: `for j in range(ny): for i in range(nx)`. -/
def gridPlacements (nx ny : ℕ) (c : UnitCell) (stagger : Bool) : List Placement :=
  (List.range ny).flatMap fun j =>
    (List.range nx).map fun i => ⟨place_x nx c stagger j i, place_y ny c j⟩

/-- The spec's `layout_grid` over usable extents: grid counts per lines 120-121,
the early return of lines 123-125 (`if nx <= 0 or ny <= 0: return cutters`),
then the emission loops. -/
def layout_grid (usable_w usable_h : ℚ) (c : UnitCell) (stagger : Bool) : List Placement :=
  if compute_grid_count usable_w c.width c.spacing_x ≤ 0
      ∨ compute_grid_count usable_h c.height c.spacing_y ≤ 0 then []
  else
    gridPlacements (compute_grid_count usable_w c.width c.spacing_x).toNat
      (compute_grid_count usable_h c.height c.spacing_y).toNat c stagger

/-- The staggered variant `create_lattice_for_face` of `rag_basket.py`,
lines 117-141: `usable_w = face_w` (side edges reachable), `usable_h = face_h -
2 * lattice_offset_edge`, clamped counts, always-staggered rows. -/
def create_lattice_staggered (face_w face_h edge_margin : ℚ) (c : UnitCell) : List Placement :=
  if pyInt (max 0 face_w / (c.width + c.spacing_x)) ≤ 0
      ∨ pyInt (max 0 (face_h - 2 * edge_margin) / (c.height + c.spacing_y)) ≤ 0 then []
  else
    gridPlacements (pyInt (max 0 face_w / (c.width + c.spacing_x))).toNat
      (pyInt (max 0 (face_h - 2 * edge_margin) / (c.height + c.spacing_y))).toNat c true

/-- The plain variant `create_lattice_for_face` of `rag-basket.py`, lines
93-114: both margins subtracted (`usable_w = face_w - 2 * lattice_offset_edge`,
`usable_h = face_h - 2 * lattice_offset_edge`), unclamped counts, no stagger. -/
def create_lattice_plain (face_w face_h edge_margin : ℚ) (c : UnitCell) : List Placement :=
  if pyInt ((face_w - 2 * edge_margin) / (c.width + c.spacing_x)) ≤ 0
      ∨ pyInt ((face_h - 2 * edge_margin) / (c.height + c.spacing_y)) ≤ 0 then []
  else
    gridPlacements (pyInt ((face_w - 2 * edge_margin) / (c.width + c.spacing_x))).toNat
      (pyInt ((face_h - 2 * edge_margin) / (c.height + c.spacing_y))).toNat c false

/-- The slot-avoidance test of `rag_basket.py` lines 179-186:
`within_horiz = abs(coord - slot_horiz_center) < (slot_horiz_half + clearance)`,
`within_vert = (cz > slot_min_z - clearance) and (cz < slot_max_z + clearance)`,
and the placement is skipped iff `within_horiz and within_vert`. -/
def is_excluded (p : Placement) (r : ReservedRegion) (clearance : ℚ) : Bool :=
  (|p.local_x - r.center| < r.half_extent_along_axis + clearance)
    && ((r.min_along_perp - clearance < p.local_y)
      && (p.local_y < r.max_along_perp + clearance))

/-- Strict row-major order on placements: earlier rows have strictly smaller
`local_y`; within a row, earlier columns have strictly smaller `local_x`. -/
def placeLt (p q : Placement) : Prop :=
  p.local_y < q.local_y ∨ (p.local_y = q.local_y ∧ p.local_x < q.local_x)

example : compute_grid_count 80 8 4 = 6 := by with_unfolding_all rfl

example : compute_grid_count 130 12 4 = 8 := by with_unfolding_all rfl

example : compute_grid_count 10 8 4 = 0 := by with_unfolding_all rfl

example : (layout_grid 80 130 ⟨8, 12, 4, 4⟩ false).length = 48 := by with_unfolding_all rfl

example : (layout_grid 40 40 ⟨8, 12, 4, 4⟩ true).map Placement.local_x
    = [-12, 0, 12, -6, 6, 18] := by with_unfolding_all rfl

lemma length_flatMap_range_map {α : Type} (f : ℕ → ℕ → α) (nx : ℕ) :
    ∀ m, ((List.range m).flatMap fun j => (List.range nx).map (f j)).length = m * nx := by
  intro m
  induction m with
  | zero => simp
  | succ n ih =>
    rw [List.range_succ, List.flatMap_append, List.length_append, ih]
    simp [Nat.succ_mul]

lemma getElem_flatMap_range_map {α : Type} (f : ℕ → ℕ → α) (nx : ℕ) :
    ∀ m j i, j < m → i < nx →
      ((List.range m).flatMap fun j => (List.range nx).map (f j))[j * nx + i]? = some (f j i) := by
  intro m
  induction m with
  | zero => intro j i hj hi; omega
  | succ n ih =>
    intro j i hj hi
    rw [List.range_succ, List.flatMap_append, List.getElem?_append]
    rcases Nat.lt_succ_iff_lt_or_eq.1 hj with h | rfl
    · rw [if_pos]
      · exact ih j i h hi
      · rw [length_flatMap_range_map]
        have h1 : j * nx + i < (j + 1) * nx := by
          rw [Nat.succ_mul]; omega
        have h2 : (j + 1) * nx ≤ n * nx := Nat.mul_le_mul_right nx h
        omega
    · rw [if_neg, length_flatMap_range_map]
      · have h3 : j * nx + i - j * nx = i := by omega
        rw [h3]
        simp [List.getElem?_map, List.getElem?_range hi]
      · rw [length_flatMap_range_map]; omega

lemma mem_gridPlacements {p : Placement} {nx ny : ℕ} {c : UnitCell} {st : Bool} :
    p ∈ gridPlacements nx ny c st ↔
      ∃ j, j < ny ∧ ∃ i, i < nx
        ∧ Placement.mk (place_x nx c st j i) (place_y ny c j) = p := by
  simp [gridPlacements, List.mem_flatMap, List.mem_map, List.mem_range]

lemma compute_grid_count_nonneg (u ce s : ℚ) (h : 0 < ce + s) :
    0 ≤ compute_grid_count u ce s := by
  unfold compute_grid_count pyInt
  have h0 : 0 ≤ max 0 u / (ce + s) := div_nonneg (le_max_left _ _) h.le
  rw [if_pos h0]
  exact Int.floor_nonneg.2 h0

lemma compute_grid_count_eq_floor (u ce s : ℚ) (hu : 0 ≤ u) (h : 0 < ce + s) :
    compute_grid_count u ce s = ⌊u / (ce + s)⌋ := by
  unfold compute_grid_count pyInt
  rw [max_eq_right hu, if_pos (div_nonneg hu h.le)]

lemma compute_grid_count_mul_le (u ce s : ℚ) (h : 0 < ce + s) {n : ℤ} (hn : 1 ≤ n)
    (he : compute_grid_count u ce s = n) : (n : ℚ) * (ce + s) ≤ u := by
  unfold compute_grid_count pyInt at he
  have h0 : 0 ≤ max 0 u / (ce + s) := div_nonneg (le_max_left _ _) h.le
  rw [if_pos h0] at he
  have h1 : (n : ℚ) ≤ max 0 u / (ce + s) := by
    rw [← he]; exact_mod_cast Int.floor_le _
  have h2 : (n : ℚ) * (ce + s) ≤ max 0 u := (le_div_iff₀ h).1 h1
  rcases le_or_lt 0 u with hu | hu
  · rwa [max_eq_right hu] at h2
  · exfalso
    rw [max_eq_left hu.le] at h2
    have h3 : (1 : ℚ) ≤ (n : ℚ) := by exact_mod_cast hn
    nlinarith

lemma layout_grid_pos (uw uh : ℚ) (c : UnitCell) (st : Bool) {nx ny : ℕ}
    (hnx : compute_grid_count uw c.width c.spacing_x = (nx : ℤ))
    (hny : compute_grid_count uh c.height c.spacing_y = (ny : ℤ))
    (hnx1 : 1 ≤ nx) (hny1 : 1 ≤ ny) :
    layout_grid uw uh c st = gridPlacements nx ny c st := by
  unfold layout_grid
  rw [hnx, hny, if_neg (by omega)]
  simp

lemma count_fit {u ce s : ℚ} (h : 0 < ce + s) {n : ℕ}
    (he : compute_grid_count u ce s = (n : ℤ)) (hn : 1 ≤ n) :
    (n : ℚ) * (ce + s) ≤ u := by
  have h1 := compute_grid_count_mul_le u ce s h (n := (n : ℤ)) (by exact_mod_cast hn) he
  exact_mod_cast h1

lemma row_offset_false (c : UnitCell) (j : ℕ) : row_offset c false j = 0 := by
  simp [row_offset]

lemma row_offset_nonneg (c : UnitCell) (st : Bool) (j : ℕ)
    (h : 0 ≤ c.width + c.spacing_x) : 0 ≤ row_offset c st j := by
  unfold row_offset
  split
  · positivity
  · exact le_refl 0

lemma row_offset_le (c : UnitCell) (st : Bool) (j : ℕ)
    (h : 0 ≤ c.width + c.spacing_x) :
    row_offset c st j ≤ (c.width + c.spacing_x) / 2 := by
  unfold row_offset
  split
  · exact le_refl _
  · positivity

lemma cast_le_sub_one {i n : ℕ} (h : i < n) : (i : ℚ) ≤ (n : ℚ) - 1 := by
  have h1 : (i : ℚ) + 1 ≤ (n : ℚ) := by exact_mod_cast h
  linarith

lemma place_x_abs_le {nx : ℕ} {c : UnitCell} {st : Bool} {j i : ℕ} (hi : i < nx)
    (hw : 0 < c.width) (hsx : 0 < c.spacing_x) {uw : ℚ}
    (hfit : (nx : ℚ) * (c.width + c.spacing_x) ≤ uw) :
    |place_x nx c st j i| ≤ uw / 2 := by
  have hi1 : (i : ℚ) ≤ (nx : ℚ) - 1 := cast_le_sub_one hi
  have hi0 : (0 : ℚ) ≤ (i : ℚ) := Nat.cast_nonneg i
  have hp : (0 : ℚ) < c.width + c.spacing_x := by linarith
  have hmul : (i : ℚ) * (c.width + c.spacing_x)
      ≤ ((nx : ℚ) - 1) * (c.width + c.spacing_x) :=
    mul_le_mul_of_nonneg_right hi1 hp.le
  have hmul0 : (0 : ℚ) ≤ (i : ℚ) * (c.width + c.spacing_x) := mul_nonneg hi0 hp.le
  have ho0 : 0 ≤ row_offset c st j := row_offset_nonneg c st j hp.le
  have ho1 : row_offset c st j ≤ (c.width + c.spacing_x) / 2 := row_offset_le c st j hp.le
  rw [abs_le]
  unfold place_x grid_total_w
  constructor <;> nlinarith

lemma place_x_abs_le_unstaggered {nx : ℕ} {c : UnitCell} {j i : ℕ} (hi : i < nx)
    (hw : 0 < c.width) (hsx : 0 < c.spacing_x) {uw : ℚ}
    (hfit : (nx : ℚ) * (c.width + c.spacing_x) ≤ uw) :
    |place_x nx c false j i| + c.width / 2 ≤ uw / 2 := by
  have hi1 : (i : ℚ) ≤ (nx : ℚ) - 1 := cast_le_sub_one hi
  have hi0 : (0 : ℚ) ≤ (i : ℚ) := Nat.cast_nonneg i
  have hp : (0 : ℚ) < c.width + c.spacing_x := by linarith
  have hmul : (i : ℚ) * (c.width + c.spacing_x)
      ≤ ((nx : ℚ) - 1) * (c.width + c.spacing_x) :=
    mul_le_mul_of_nonneg_right hi1 hp.le
  have hmul0 : (0 : ℚ) ≤ (i : ℚ) * (c.width + c.spacing_x) := mul_nonneg hi0 hp.le
  have habs : |place_x nx c false j i| ≤ uw / 2 - c.width / 2 := by
    rw [abs_le]
    unfold place_x grid_total_w
    rw [row_offset_false]
    constructor <;> nlinarith
  linarith

lemma place_y_abs_le_cell {ny : ℕ} {c : UnitCell} {j : ℕ} (hj : j < ny)
    (hh : 0 < c.height) (hsy : 0 < c.spacing_y) {uh : ℚ}
    (hfit : (ny : ℚ) * (c.height + c.spacing_y) ≤ uh) :
    |place_y ny c j| + c.height / 2 ≤ uh / 2 := by
  have hj1 : (j : ℚ) ≤ (ny : ℚ) - 1 := cast_le_sub_one hj
  have hj0 : (0 : ℚ) ≤ (j : ℚ) := Nat.cast_nonneg j
  have hp : (0 : ℚ) < c.height + c.spacing_y := by linarith
  have hmul : (j : ℚ) * (c.height + c.spacing_y)
      ≤ ((ny : ℚ) - 1) * (c.height + c.spacing_y) :=
    mul_le_mul_of_nonneg_right hj1 hp.le
  have hmul0 : (0 : ℚ) ≤ (j : ℚ) * (c.height + c.spacing_y) := mul_nonneg hj0 hp.le
  have habs : |place_y ny c j| ≤ uh / 2 - c.height / 2 := by
    rw [abs_le]
    unfold place_y grid_total_h
    constructor <;> nlinarith
  linarith

lemma layout_abs_bounds (uw uh : ℚ) (c : UnitCell) (st : Bool)
    (hw : 0 < c.width) (hh : 0 < c.height) (hsx : 0 < c.spacing_x) (hsy : 0 < c.spacing_y) :
    ∀ p ∈ layout_grid uw uh c st, |p.local_x| ≤ uw / 2 ∧ |p.local_y| ≤ uh / 2 := by
  intro p hp
  have hpx : (0 : ℚ) < c.width + c.spacing_x := by linarith
  have hpy : (0 : ℚ) < c.height + c.spacing_y := by linarith
  rw [layout_grid] at hp
  split at hp
  · simp at hp
  · rename_i hg
    push_neg at hg
    have hx0 : 0 < compute_grid_count uw c.width c.spacing_x := hg.1
    have hy0 : 0 < compute_grid_count uh c.height c.spacing_y := hg.2
    have hnx : compute_grid_count uw c.width c.spacing_x
        = ((compute_grid_count uw c.width c.spacing_x).toNat : ℤ) :=
      (Int.toNat_of_nonneg hx0.le).symm
    have hny : compute_grid_count uh c.height c.spacing_y
        = ((compute_grid_count uh c.height c.spacing_y).toNat : ℤ) :=
      (Int.toNat_of_nonneg hy0.le).symm
    have hn1 : 1 ≤ (compute_grid_count uw c.width c.spacing_x).toNat := by omega
    have hm1 : 1 ≤ (compute_grid_count uh c.height c.spacing_y).toNat := by omega
    have hfw := count_fit hpx hnx hn1
    have hfh := count_fit hpy hny hm1
    rw [mem_gridPlacements] at hp
    obtain ⟨j, hj, i, hi, hpeq⟩ := hp
    subst hpeq
    constructor
    · exact place_x_abs_le hi hw hsx hfw
    · have h1 := place_y_abs_le_cell hj hh hsy hfh
      have h2 : (0 : ℚ) < c.height / 2 := by linarith
      calc |place_y (compute_grid_count uh c.height c.spacing_y).toNat c j|
          ≤ |place_y (compute_grid_count uh c.height c.spacing_y).toNat c j|
            + c.height / 2 := by linarith
        _ ≤ uh / 2 := h1

lemma place_x_neg {nx : ℕ} (c : UnitCell) (j i : ℕ) (hi : i < nx) :
    place_x nx c false j (nx - 1 - i) = -place_x nx c false j i := by
  obtain ⟨k, rfl⟩ : ∃ k, nx = i + k + 1 := ⟨nx - 1 - i, by omega⟩
  have h1 : i + k + 1 - 1 - i = k := by omega
  rw [h1]
  unfold place_x grid_total_w
  rw [row_offset_false]
  push_cast
  ring

lemma place_y_neg {ny : ℕ} (c : UnitCell) (j : ℕ) (hj : j < ny) :
    place_y ny c (ny - 1 - j) = -place_y ny c j := by
  obtain ⟨k, rfl⟩ : ∃ k, ny = j + k + 1 := ⟨ny - 1 - j, by omega⟩
  have h1 : j + k + 1 - 1 - j = k := by omega
  rw [h1]
  unfold place_y grid_total_h
  push_cast
  ring

lemma place_x_center {nx : ℕ} (c : UnitCell) (j : ℕ) (h : nx % 2 = 1) :
    place_x nx c false j (nx / 2) = 0 := by
  obtain ⟨k, rfl⟩ : ∃ k, nx = 2 * k + 1 := ⟨nx / 2, by omega⟩
  have h1 : (2 * k + 1) / 2 = k := by omega
  rw [h1]
  unfold place_x grid_total_w
  rw [row_offset_false]
  push_cast
  ring

lemma place_y_center {ny : ℕ} (c : UnitCell) (h : ny % 2 = 1) :
    place_y ny c (ny / 2) = 0 := by
  obtain ⟨k, rfl⟩ : ∃ k, ny = 2 * k + 1 := ⟨ny / 2, by omega⟩
  have h1 : (2 * k + 1) / 2 = k := by omega
  rw [h1]
  unfold place_y grid_total_h
  push_cast
  ring

lemma pairwise_flatMap_range {α : Type} (R : α → α → Prop) (row : ℕ → List α)
    (hrow : ∀ j, (row j).Pairwise R)
    (hcross : ∀ j1 j2, j1 < j2 → ∀ a ∈ row j1, ∀ b ∈ row j2, R a b) :
    ∀ m, ((List.range m).flatMap row).Pairwise R := by
  intro m
  induction m with
  | zero => simp
  | succ n ih =>
    rw [List.range_succ, List.flatMap_append]
    refine List.pairwise_append.2 ⟨ih, by simpa using hrow n, ?_⟩
    intro a ha b hb
    rw [List.mem_flatMap] at ha
    obtain ⟨j, hj, haj⟩ := ha
    rw [List.mem_range] at hj
    exact hcross j n hj a haj b (by simpa using hb)

lemma pyInt_nonpos_of_neg {q : ℚ} (h : q < 0) : pyInt q ≤ 0 := by
  unfold pyInt
  rw [if_neg (not_le.2 h)]
  exact Int.ceil_le.2 (by exact_mod_cast h.le)

/-- C1: for a unit cell with positive dimensions and spacings, when the
computed grid counts nx and ny are both positive, layout_grid emits exactly
nx * ny placements, and the placement at row j, column i (row-major index
j * nx + i) has local_x equal to -grid_total_w / 2 + width / 2 + i * (width +
spacing_x) plus the stagger row offset, and local_y equal to -grid_total_h / 2
+ height / 2 + j * (height + spacing_y), where grid_total_w = nx * width +
(nx - 1) * spacing_x and grid_total_h = ny * height + (ny - 1) * spacing_y. -/
theorem C1_layout_grid_count_and_coordinates (uw uh : ℚ) (c : UnitCell) (st : Bool)
    (hw : 0 < c.width) (hh : 0 < c.height) (hsx : 0 < c.spacing_x) (hsy : 0 < c.spacing_y)
    (nx ny : ℕ)
    (hnx : compute_grid_count uw c.width c.spacing_x = (nx : ℤ)) (hnx1 : 1 ≤ nx)
    (hny : compute_grid_count uh c.height c.spacing_y = (ny : ℤ)) (hny1 : 1 ≤ ny) :
    (layout_grid uw uh c st).length = nx * ny ∧
    ∀ j i, j < ny → i < nx →
      (layout_grid uw uh c st)[j * nx + i]? = some
        (Placement.mk
          (-((nx : ℚ) * c.width + ((nx : ℚ) - 1) * c.spacing_x) / 2 + c.width / 2
            + (i : ℚ) * (c.width + c.spacing_x) + row_offset c st j)
          (-((ny : ℚ) * c.height + ((ny : ℚ) - 1) * c.spacing_y) / 2 + c.height / 2
            + (j : ℚ) * (c.height + c.spacing_y))) := by
  rw [layout_grid_pos uw uh c st hnx hny hnx1 hny1]
  constructor
  · rw [gridPlacements, length_flatMap_range_map, Nat.mul_comm]
  · intro j i hj hi
    rw [gridPlacements, getElem_flatMap_range_map _ _ ny j i hj hi]
    rfl

/-- Witness for C1 at the spec's concrete scenario: usable 80 by 130, cell
8 by 12 with spacings 4, counts 6 by 8; index 1 * 6 + 2 is row 1, column 2. -/
theorem C1_witness :
    (layout_grid 80 130 (UnitCell.mk 8 12 4 4) false).length = 6 * 8 ∧
    (layout_grid 80 130 (UnitCell.mk 8 12 4 4) false)[1 * 6 + 2]?
      = some (Placement.mk (-6) (-40)) := by
  have h := C1_layout_grid_count_and_coordinates 80 130 (UnitCell.mk 8 12 4 4) false
    (by norm_num) (by norm_num) (by norm_num) (by norm_num) 6 8
    (by with_unfolding_all rfl) (by norm_num) (by with_unfolding_all rfl) (by norm_num)
  refine ⟨h.1, ?_⟩
  rw [h.2 1 2 (by norm_num) (by norm_num)]
  norm_num [row_offset, Placement.mk.injEq]

/-- C2: for nonnegative usable extent and positive cell extent and spacing,
compute_grid_count equals the nonnegative integer floor (usable / (cell +
spacing)); concretely 80 / (8 + 4) gives 6, 130 / (12 + 4) gives 8, and the
unexcluded 80 by 130 layout has 48 placements. -/
theorem C2_compute_grid_count_is_floor (u ce s : ℚ) (hu : 0 ≤ u) (hc : 0 < ce) (hs : 0 < s) :
    (compute_grid_count u ce s = ⌊u / (ce + s)⌋ ∧ 0 ≤ compute_grid_count u ce s) ∧
    compute_grid_count 80 8 4 = 6 ∧ compute_grid_count 130 12 4 = 8 ∧
    (layout_grid 80 130 (UnitCell.mk 8 12 4 4) false).length = 48 := by
  have hcs : 0 < ce + s := by linarith
  refine ⟨⟨compute_grid_count_eq_floor u ce s hu hcs,
    compute_grid_count_nonneg u ce s hcs⟩, ?_, ?_, ?_⟩
  · with_unfolding_all rfl
  · with_unfolding_all rfl
  · with_unfolding_all rfl

/-- Witness for C2 at usable 80, cell 8, spacing 4. -/
theorem C2_witness :
    compute_grid_count 80 8 4 = ⌊(80 : ℚ) / (8 + 4)⌋
      ∧ (layout_grid 80 130 (UnitCell.mk 8 12 4 4) false).length = 48 := by
  have h := C2_compute_grid_count_is_floor 80 8 4 (by norm_num) (by norm_num) (by norm_num)
  exact ⟨h.1.1, h.2.2.2⟩

/-- C5: the engine degrades to an empty result instead of failing: when the
usable extent is smaller than the cell extent the grid count is 0, and when
either computed grid count is 0 layout_grid returns the empty sequence. -/
theorem C5_no_fit_yields_empty (u ce s uw uh : ℚ) (c : UnitCell) (st : Bool)
    (hce : 0 < ce) (hs : 0 < s) (hu : u < ce)
    (h0 : compute_grid_count uw c.width c.spacing_x = 0
      ∨ compute_grid_count uh c.height c.spacing_y = 0) :
    compute_grid_count u ce s = 0 ∧ layout_grid uw uh c st = [] := by
  constructor
  · unfold compute_grid_count pyInt
    have hcs : (0 : ℚ) < ce + s := by linarith
    have h1 : 0 ≤ max 0 u / (ce + s) := div_nonneg (le_max_left _ _) hcs.le
    rw [if_pos h1, Int.floor_eq_zero_iff]
    refine Set.mem_Ico.2 ⟨h1, ?_⟩
    have hmax : max 0 u < ce + s := max_lt (by linarith) (by linarith)
    exact (div_lt_one hcs).2 hmax
  · unfold layout_grid
    rcases h0 with h | h
    · rw [if_pos (Or.inl h.le)]
    · rw [if_pos (Or.inr h.le)]

/-- Witness for C5: usable 5 is smaller than cell 8, and usable width 10
gives count 0, so the 10 by 130 layout is empty. -/
theorem C5_witness :
    compute_grid_count 5 8 4 = 0
      ∧ layout_grid 10 130 (UnitCell.mk 8 12 4 4) false = [] :=
  C5_no_fit_yields_empty 5 8 4 10 130 (UnitCell.mk 8 12 4 4) false
    (by norm_num) (by norm_num) (by norm_num)
    (Or.inl (by with_unfolding_all rfl))

/-- C8: usable-extent computation across the two script variants: the
staggered variant subtracts the vertical margin only (usable_h = face_h -
2 * edge_margin, usable_w = face_w with no horizontal margin), while the
plain variant subtracts 2 * edge_margin from both the width and the height. -/
theorem C8_margin_application (fw fh m : ℚ) (c : UnitCell)
    (hpx : 0 < c.width + c.spacing_x) (hpy : 0 < c.height + c.spacing_y) :
    create_lattice_staggered fw fh m c = layout_grid fw (fh - 2 * m) c true ∧
    create_lattice_plain fw fh m c = layout_grid (fw - 2 * m) (fh - 2 * m) c false := by
  constructor
  · rfl
  · unfold create_lattice_plain layout_grid compute_grid_count
    rcases le_or_lt 0 (fw - 2 * m) with hw | hw
    · rcases le_or_lt 0 (fh - 2 * m) with hh | hh
      · rw [max_eq_right hw, max_eq_right hh]
      · have h1 : pyInt ((fh - 2 * m) / (c.height + c.spacing_y)) ≤ 0 :=
          pyInt_nonpos_of_neg (div_neg_of_neg_of_pos hh hpy)
        have h2 : pyInt (max 0 (fh - 2 * m) / (c.height + c.spacing_y)) ≤ 0 := by
          rw [max_eq_left hh.le]
          simp [pyInt]
        rw [if_pos (Or.inr h1), if_pos (Or.inr h2)]
    · have h1 : pyInt ((fw - 2 * m) / (c.width + c.spacing_x)) ≤ 0 :=
        pyInt_nonpos_of_neg (div_neg_of_neg_of_pos hw hpx)
      have h2 : pyInt (max 0 (fw - 2 * m) / (c.width + c.spacing_x)) ≤ 0 := by
        rw [max_eq_left hw.le]
        simp [pyInt]
      rw [if_pos (Or.inl h1), if_pos (Or.inl h2)]

/-- Witness for C8 on a 100 by 100 face with margin 10. -/
theorem C8_witness :
    create_lattice_plain 100 100 10 (UnitCell.mk 8 12 4 4)
      = layout_grid (100 - 2 * 10) (100 - 2 * 10) (UnitCell.mk 8 12 4 4) false :=
  (C8_margin_application 100 100 10 (UnitCell.mk 8 12 4 4)
    (by norm_num) (by norm_num)).2

/-- C10: totality and clamping: a negative usable extent is clamped to 0 by
max(0, usable) so the count equals the count at 0 and is never negative, the
layout is empty whenever either count is nonpositive, and the layout always
is a well-defined list of length toNat nx * toNat ny. -/
theorem C10_clamp_and_totality (u ce s uw uh : ℚ) (c : UnitCell) (st : Bool)
    (hcs : 0 < ce + s) (hpx : 0 < c.width + c.spacing_x) (hpy : 0 < c.height + c.spacing_y)
    (hneg : u < 0) :
    compute_grid_count u ce s = compute_grid_count 0 ce s ∧
    compute_grid_count u ce s = 0 ∧
    (∀ v : ℚ, 0 ≤ compute_grid_count v ce s) ∧
    ((compute_grid_count uw c.width c.spacing_x ≤ 0
        ∨ compute_grid_count uh c.height c.spacing_y ≤ 0) → layout_grid uw uh c st = []) ∧
    (layout_grid uw uh c st).length =
      (compute_grid_count uw c.width c.spacing_x).toNat
        * (compute_grid_count uh c.height c.spacing_y).toNat := by
  have hzero : compute_grid_count u ce s = 0 := by
    unfold compute_grid_count pyInt
    rw [max_eq_left hneg.le]
    simp
  refine ⟨?_, hzero, fun v => compute_grid_count_nonneg v ce s hcs, ?_, ?_⟩
  · rw [hzero]
    unfold compute_grid_count pyInt
    rw [max_self]
    simp
  · intro h0
    unfold layout_grid
    rcases h0 with h | h
    · rw [if_pos (Or.inl h)]
    · rw [if_pos (Or.inr h)]
  · unfold layout_grid
    by_cases hg : compute_grid_count uw c.width c.spacing_x ≤ 0
        ∨ compute_grid_count uh c.height c.spacing_y ≤ 0
    · rw [if_pos hg]
      have h1 := compute_grid_count_nonneg uw c.width c.spacing_x hpx
      have h2 := compute_grid_count_nonneg uh c.height c.spacing_y hpy
      rcases hg with h | h
      · have h3 : compute_grid_count uw c.width c.spacing_x = 0 := le_antisymm h h1
        simp [h3]
      · have h3 : compute_grid_count uh c.height c.spacing_y = 0 := le_antisymm h h2
        simp [h3]
    · rw [if_neg hg, gridPlacements, length_flatMap_range_map, Nat.mul_comm]

/-- C3: is_excluded holds iff the placement lies strictly within the
clearance-expanded reserved span along the primary axis and strictly within
the clearance-expanded perpendicular interval (a conjunction of both tests),
and for a reserved region whose expanded spans strictly cover the whole
usable face every layout placement is excluded, so the filtered result is
empty. -/
theorem C3_is_excluded_conjunction_and_coverage (p : Placement) (r : ReservedRegion)
    (cl uw uh : ℚ) (c : UnitCell) (st : Bool)
    (hw : 0 < c.width) (hh : 0 < c.height) (hsx : 0 < c.spacing_x) (hsy : 0 < c.spacing_y)
    (hcov1 : r.center - (r.half_extent_along_axis + cl) < -(uw / 2))
    (hcov2 : uw / 2 < r.center + (r.half_extent_along_axis + cl))
    (hcov3 : r.min_along_perp - cl < -(uh / 2))
    (hcov4 : uh / 2 < r.max_along_perp + cl) :
    (is_excluded p r cl = true ↔
      (|p.local_x - r.center| < r.half_extent_along_axis + cl
        ∧ (r.min_along_perp - cl < p.local_y ∧ p.local_y < r.max_along_perp + cl))) ∧
    (∀ q ∈ layout_grid uw uh c st, is_excluded q r cl = true) ∧
    (layout_grid uw uh c st).filter (fun q => !(is_excluded q r cl)) = [] := by
  have hiff : ∀ q : Placement, is_excluded q r cl = true ↔
      (|q.local_x - r.center| < r.half_extent_along_axis + cl
        ∧ (r.min_along_perp - cl < q.local_y ∧ q.local_y < r.max_along_perp + cl)) := by
    intro q
    simp [is_excluded, Bool.and_eq_true, decide_eq_true_eq]
  have hall : ∀ q ∈ layout_grid uw uh c st, is_excluded q r cl = true := by
    intro q hq
    obtain ⟨hx, hy⟩ := layout_abs_bounds uw uh c st hw hh hsx hsy q hq
    rw [abs_le] at hx hy
    rw [hiff q]
    refine ⟨?_, ?_, ?_⟩
    · rw [abs_lt]
      constructor <;> linarith [hx.1, hx.2]
    · linarith [hy.1]
    · linarith [hy.2]
  refine ⟨hiff p, hall, ?_⟩
  rw [List.filter_eq_nil_iff]
  intro a ha
  simp [hall a ha]

/-- Witness for C3: a reserved region covering the whole 80 by 130 face with
clearance 10 filters away every placement. -/
theorem C3_witness :
    (layout_grid 80 130 (UnitCell.mk 8 12 4 4) false).filter
      (fun q => !(is_excluded q (ReservedRegion.mk 0 100 (-100) 100) 10)) = [] :=
  (C3_is_excluded_conjunction_and_coverage (Placement.mk 0 0)
    (ReservedRegion.mk 0 100 (-100) 100) 10 80 130 (UnitCell.mk 8 12 4 4) false
    (by norm_num) (by norm_num) (by norm_num) (by norm_num)
    (by norm_num) (by norm_num) (by norm_num) (by norm_num)).2.2

/-- C4: with stagger enabled, the placement at any odd-indexed row has its
local_x increased by exactly half the horizontal pitch (width + spacing_x) / 2
relative to the unstaggered placement at the same row-major index, and
even-indexed rows are unchanged; concretely for nx = 3, width 8, spacing 4 the
unstaggered columns sit at -12, 0, 12 and the odd row 1 shifts to -6, 6, 18. -/
theorem C4_stagger_shifts_odd_rows (uw uh : ℚ) (c : UnitCell) (nx ny : ℕ)
    (hnx : compute_grid_count uw c.width c.spacing_x = (nx : ℤ)) (hnx1 : 1 ≤ nx)
    (hny : compute_grid_count uh c.height c.spacing_y = (ny : ℤ)) (hny1 : 1 ≤ ny)
    (j i : ℕ) (hj : j < ny) (hi : i < nx) :
    (∃ ps pu : Placement,
      (layout_grid uw uh c true)[j * nx + i]? = some ps ∧
      (layout_grid uw uh c false)[j * nx + i]? = some pu ∧
      ps.local_y = pu.local_y ∧
      ps.local_x = pu.local_x
        + (if j % 2 = 1 then (c.width + c.spacing_x) / 2 else 0)) ∧
    (layout_grid 40 40 (UnitCell.mk 8 12 4 4) true).map Placement.local_x
      = [-12, 0, 12, -6, 6, 18] := by
  constructor
  · refine ⟨Placement.mk (place_x nx c true j i) (place_y ny c j),
      Placement.mk (place_x nx c false j i) (place_y ny c j), ?_, ?_, rfl, ?_⟩
    · rw [layout_grid_pos uw uh c true hnx hny hnx1 hny1, gridPlacements,
        getElem_flatMap_range_map _ _ ny j i hj hi]
    · rw [layout_grid_pos uw uh c false hnx hny hnx1 hny1, gridPlacements,
        getElem_flatMap_range_map _ _ ny j i hj hi]
    · simp only [place_x, row_offset]
      by_cases hj2 : j % 2 = 1
      · simp [hj2]
      · simp [hj2]
  · with_unfolding_all rfl

/-- Witness for C4 on the 40 by 40 face (nx = 3, ny = 2): the staggered
columns of row 1. -/
theorem C4_witness :
    (layout_grid 40 40 (UnitCell.mk 8 12 4 4) true).map Placement.local_x
      = [-12, 0, 12, -6, 6, 18] :=
  (C4_stagger_shifts_odd_rows 40 40 (UnitCell.mk 8 12 4 4) 3 2
    (by with_unfolding_all rfl) (by norm_num) (by with_unfolding_all rfl) (by norm_num)
    1 0 (by norm_num) (by norm_num)).2

/-- C6: determinism and ordering: two invocations on identical inputs give
the same sequence, and the emitted sequence is strictly sorted in row-major
order, local_y ascending across rows and local_x ascending within a row. -/
theorem C6_deterministic_row_major (uw uh : ℚ) (c : UnitCell) (st : Bool)
    (hw : 0 < c.width) (hh : 0 < c.height) (hsx : 0 < c.spacing_x) (hsy : 0 < c.spacing_y) :
    layout_grid uw uh c st = layout_grid uw uh c st ∧
    (layout_grid uw uh c st).Pairwise placeLt := by
  have hpx : (0 : ℚ) < c.width + c.spacing_x := by linarith
  have hpy : (0 : ℚ) < c.height + c.spacing_y := by linarith
  refine ⟨rfl, ?_⟩
  rw [layout_grid]
  split
  · exact List.Pairwise.nil
  · unfold gridPlacements
    apply pairwise_flatMap_range
    · intro j
      rw [List.pairwise_map]
      refine List.Pairwise.imp ?_ (List.pairwise_lt_range _)
      intro a b hab
      right
      refine ⟨rfl, ?_⟩
      have hc : (a : ℚ) < (b : ℚ) := by exact_mod_cast hab
      have hm := mul_lt_mul_of_pos_right hc hpx
      unfold place_x
      linarith
    · intro j1 j2 hjj a ha b hb
      rw [List.mem_map] at ha hb
      obtain ⟨i1, hi1, ha1⟩ := ha
      obtain ⟨i2, hi2, hb1⟩ := hb
      subst ha1
      subst hb1
      left
      have hc : (j1 : ℚ) < (j2 : ℚ) := by exact_mod_cast hjj
      have hm := mul_lt_mul_of_pos_right hc hpy
      show place_y _ c j1 < place_y _ c j2
      unfold place_y
      linarith

/-- Witness for C6: the 80 by 130 layout is strictly row-major sorted. -/
theorem C6_witness :
    (layout_grid 80 130 (UnitCell.mk 8 12 4 4) false).Pairwise placeLt :=
  (C6_deterministic_row_major 80 130 (UnitCell.mk 8 12 4 4) false
    (by norm_num) (by norm_num) (by norm_num) (by norm_num)).2

/-- C7: symmetry of the non-staggered layout: the multiset of local_x values
(and of local_y values) is closed under negation, and for an odd column count
some placement lies exactly at local_x = 0 (likewise vertically for odd ny). -/
theorem C7_symmetry_under_negation (uw uh : ℚ) (c : UnitCell) (nx ny : ℕ)
    (hnx : compute_grid_count uw c.width c.spacing_x = (nx : ℤ)) (hnx1 : 1 ≤ nx)
    (hny : compute_grid_count uh c.height c.spacing_y = (ny : ℤ)) (hny1 : 1 ≤ ny) :
    (∀ p ∈ layout_grid uw uh c false, ∃ q ∈ layout_grid uw uh c false,
      q.local_x = -p.local_x) ∧
    (∀ p ∈ layout_grid uw uh c false, ∃ q ∈ layout_grid uw uh c false,
      q.local_y = -p.local_y) ∧
    (nx % 2 = 1 → ∃ p ∈ layout_grid uw uh c false, p.local_x = 0) ∧
    (ny % 2 = 1 → ∃ p ∈ layout_grid uw uh c false, p.local_y = 0) := by
  rw [layout_grid_pos uw uh c false hnx hny hnx1 hny1]
  refine ⟨?_, ?_, ?_, ?_⟩
  · intro p hp
    rw [mem_gridPlacements] at hp
    obtain ⟨j, hj, i, hi, hpeq⟩ := hp
    subst hpeq
    refine ⟨Placement.mk (place_x nx c false j (nx - 1 - i)) (place_y ny c j), ?_, ?_⟩
    · rw [mem_gridPlacements]
      exact ⟨j, hj, nx - 1 - i, by omega, rfl⟩
    · exact place_x_neg c j i hi
  · intro p hp
    rw [mem_gridPlacements] at hp
    obtain ⟨j, hj, i, hi, hpeq⟩ := hp
    subst hpeq
    refine ⟨Placement.mk (place_x nx c false (ny - 1 - j) i) (place_y ny c (ny - 1 - j)), ?_, ?_⟩
    · rw [mem_gridPlacements]
      exact ⟨ny - 1 - j, by omega, i, hi, rfl⟩
    · exact place_y_neg c j hj
  · intro hodd
    refine ⟨Placement.mk (place_x nx c false 0 (nx / 2)) (place_y ny c 0), ?_, ?_⟩
    · rw [mem_gridPlacements]
      exact ⟨0, by omega, nx / 2, by omega, rfl⟩
    · exact place_x_center c 0 hodd
  · intro hodd
    refine ⟨Placement.mk (place_x nx c false (ny / 2) 0) (place_y ny c (ny / 2)), ?_, ?_⟩
    · rw [mem_gridPlacements]
      exact ⟨ny / 2, by omega, 0, by omega, rfl⟩
    · exact place_y_center c hodd

/-- Witness for C7 on a usable 40 by 130 face: nx = 3 is odd, so a placement
sits exactly on the vertical axis. -/
theorem C7_witness :
    ∃ p ∈ layout_grid 40 130 (UnitCell.mk 8 12 4 4) false, p.local_x = 0 :=
  (C7_symmetry_under_negation 40 130 (UnitCell.mk 8 12 4 4) 3 8
    (by with_unfolding_all rfl) (by norm_num)
    (by with_unfolding_all rfl) (by norm_num)).2.2.1 (by norm_num)

/-- C9: the computed grid fits inside the usable area with a full spacing to
spare (grid_total_w at most usable_width - spacing_x, and likewise
vertically), so every unstaggered placement's cell footprint lies entirely
within the usable extent: the absolute local coordinate plus half the cell
extent stays within half the usable extent. -/
theorem C9_grid_fits_usable_area (uw uh : ℚ) (c : UnitCell) (nx ny : ℕ)
    (hw : 0 < c.width) (hh : 0 < c.height) (hsx : 0 < c.spacing_x) (hsy : 0 < c.spacing_y)
    (hnx : compute_grid_count uw c.width c.spacing_x = (nx : ℤ)) (hnx1 : 1 ≤ nx)
    (hny : compute_grid_count uh c.height c.spacing_y = (ny : ℤ)) (hny1 : 1 ≤ ny) :
    grid_total_w nx c ≤ uw - c.spacing_x ∧
    grid_total_h ny c ≤ uh - c.spacing_y ∧
    ∀ p ∈ layout_grid uw uh c false,
      |p.local_x| + c.width / 2 ≤ uw / 2 ∧ |p.local_y| + c.height / 2 ≤ uh / 2 := by
  have hpx : (0 : ℚ) < c.width + c.spacing_x := by linarith
  have hpy : (0 : ℚ) < c.height + c.spacing_y := by linarith
  have hfw : (nx : ℚ) * (c.width + c.spacing_x) ≤ uw := count_fit hpx hnx hnx1
  have hfh : (ny : ℚ) * (c.height + c.spacing_y) ≤ uh := count_fit hpy hny hny1
  refine ⟨?_, ?_, ?_⟩
  · unfold grid_total_w
    nlinarith
  · unfold grid_total_h
    nlinarith
  · intro p hp
    rw [layout_grid_pos uw uh c false hnx hny hnx1 hny1, mem_gridPlacements] at hp
    obtain ⟨j, hj, i, hi, hpeq⟩ := hp
    subst hpeq
    exact ⟨place_x_abs_le_unstaggered hi hw hsx hfw, place_y_abs_le_cell hj hh hsy hfh⟩

/-- Witness for C9 at the 80 by 130 scenario with counts 6 by 8. -/
theorem C9_witness :
    grid_total_w 6 (UnitCell.mk 8 12 4 4) ≤ 80 - 4
      ∧ grid_total_h 8 (UnitCell.mk 8 12 4 4) ≤ 130 - 4 := by
  have h := C9_grid_fits_usable_area 80 130 (UnitCell.mk 8 12 4 4) 6 8
    (by norm_num) (by norm_num) (by norm_num) (by norm_num)
    (by with_unfolding_all rfl) (by norm_num) (by with_unfolding_all rfl) (by norm_num)
  exact ⟨h.1, h.2.1⟩

/-- Witness for C10 at usable -5 (clamped) and the 80 by 130 layout. -/
theorem C10_witness :
    compute_grid_count (-5) 8 4 = 0 ∧
    (layout_grid 80 130 (UnitCell.mk 8 12 4 4) false).length =
      (compute_grid_count 80 8 4).toNat * (compute_grid_count 130 12 4).toNat := by
  have h := C10_clamp_and_totality (-5) 8 4 80 130 (UnitCell.mk 8 12 4 4) false
    (by norm_num) (by norm_num) (by norm_num) (by norm_num)
  exact ⟨h.2.1, h.2.2.2.2⟩

end RagBasket
